import Mathlib

/-!
Verification development for the `pydantic_class_generator` repository.

The Python sources are shallowly embedded below:
* `node_parser.py` — identifier normalizers, the recursive parser that turns a
  generic configuration tree into `Node`s, the dedup registry, and the INI
  scalar-type inference;
* `node.py` — the `Node`/`ListNode` data model, structural equality and
  per-node code generation;
* `class_code_generator.py` — the code emitter and the directory batch driver.

Strings are modelled over `List Char`; Python string predicates such as
`str.isdigit`, `str.isalpha`, `str.isupper` and `str.isidentifier` are modelled
for the ASCII range (plus the explicit umlaut/eszett transliteration cases that
the source handles one by one).  Python functions that can raise are embedded
with `Option`/`Except`; every other function is a total translation of the
corresponding Python function.
-/

/-- Python `str.lower` on one character, ASCII range (as used by the sources on
ASCII data; the umlaut cases of `_replace_invalid_characters` are handled
separately, faithful to the Python code that tests them explicitly). -/
def pyLowerChar (c : Char) : Char := c.toLower

/-- Python `str.lower` over a whole string, ASCII range. -/
def pyLower (cs : List Char) : List Char := cs.map pyLowerChar

/-- Python `str.upper` on one character, ASCII range. -/
def pyUpperChar (c : Char) : Char := c.toUpper

/-- Python `str.isdigit` (ASCII): nonempty and all digits. -/
def pyIsDigit (cs : List Char) : Bool := !cs.isEmpty && cs.all Char.isDigit

/-- Python `str.isupper` (ASCII): at least one cased character and no lowercase
character. -/
def pyIsUpper (cs : List Char) : Bool :=
  cs.any Char.isAlpha && cs.all (fun c => !c.isLower)

/-- Python `str.capitalize` (ASCII): first character upper-cased, the rest
lower-cased. -/
def pyCapitalize : List Char → List Char
  | [] => []
  | c :: rest => pyUpperChar c :: pyLower rest

/-- Python `word[0].upper() + word[1:]` (used by `get_valid_class_name` to
upper-case only the first letter of a word). -/
def upperFirst : List Char → List Char
  | [] => []
  | c :: rest => pyUpperChar c :: rest

/-- Python `str.isidentifier` (ASCII): nonempty, first character a letter or
underscore, the rest letters, digits or underscores. -/
def pyIsIdentifier (cs : List Char) : Bool :=
  match cs with
  | [] => false
  | c :: rest =>
    (c.isAlpha || c == '_') && rest.all (fun d => d.isAlpha || d.isDigit || d == '_')

/-- Python `str.split(sep)` for a one-character separator: keeps empty pieces,
and the empty string splits to `[""]`. -/
def pySplitOn (sep : Char) : List Char → List (List Char)
  | [] => [[]]
  | c :: rest =>
    if c == sep then
      [] :: pySplitOn sep rest
    else
      match pySplitOn sep rest with
      | [] => [[c]]
      | w :: ws => (c :: w) :: ws

/-- Python `sep.join(words)` for word lists over characters. -/
def pyJoin (sep : List Char) : List (List Char) → List Char
  | [] => []
  | [w] => w
  | w :: ws => w ++ sep ++ pyJoin sep ws

/-- Does the second character list start with the first one?  Models Python
`str.startswith`. -/
def charsStart : List Char → List Char → Bool
  | [], _ => true
  | _ :: _, [] => false
  | p :: ps, c :: cs => p == c && charsStart ps cs

/-- Python `needle in haystack` substring test. -/
def containsSub (needle : List Char) : List Char → Bool
  | [] => charsStart needle []
  | c :: cs => charsStart needle (c :: cs) || containsSub needle cs

/-- One character of `NodeParser._replace_invalid_characters`: umlauts and
eszett are transliterated, underscore/digit/letter kept, anything else becomes
the given default character. -/
def replaceInvalidChar (defaultChar : Char) (c : Char) : List Char :=
  if c == 'ä' || c == 'Ä' then ['a', 'e']
  else if c == 'ö' || c == 'Ö' then ['o', 'e']
  else if c == 'ü' || c == 'Ü' then ['u', 'e']
  else if c == 'ß' then ['s', 's']
  else if c == '_' || c.isDigit || c.isAlpha then [c]
  else [defaultChar]

/-- `NodeParser._replace_invalid_characters` from `node_parser.py`. -/
def replace_invalid_characters (name : List Char) (defaultChar : Char) : List Char :=
  name.flatMap (replaceInvalidChar defaultChar)

/-- The camel-to-snake-case step of `get_valid_field_name`: the regular
expression `(?<!^)(?=[A-Z])` is replaced by `_`, i.e. an underscore is inserted
in front of every uppercase ASCII letter that is not at the start of the
string. -/
def camelToSnake : List Char → List Char
  | [] => []
  | c :: rest => c :: rest.flatMap (fun d => if d.isUpper then ['_', d] else [d])

/-- The per-word step of `get_valid_field_name`: all-uppercase words are
lower-cased, other words kept verbatim; empty words are dropped. -/
def fieldWords (words : List (List Char)) : List (List Char) :=
  (words.filter (fun w => !w.isEmpty)).map
    (fun w => if pyIsUpper w then pyLower w else w)

/-- `NodeParser.get_valid_field_name` from `node_parser.py`.  The Python code
indexes `field_name[0]` without guarding against an empty string; inputs whose
sanitized form contains no identifier character therefore raise an
`IndexError`, modelled here by `none`. -/
def get_valid_field_name (name : List Char) : Option (List Char) :=
  let adjusted := replace_invalid_characters name '_'
  let fieldName := pyJoin ['_'] (fieldWords (pySplitOn '_' adjusted))
  let fieldName := camelToSnake fieldName
  match fieldName with
  | [] => none
  | c :: rest =>
    let fieldName := if c.isDigit then 'f' :: 'i' :: 'e' :: 'l' :: 'd' :: '_' :: c :: rest
                     else c :: rest
    some (pyLower fieldName)

/-- The per-word step of `get_valid_class_name` for underscore-separated words:
all-uppercase words are `capitalize`d, other words get only their first letter
upper-cased; empty words are dropped. -/
def classWords (words : List (List Char)) : List (List Char) :=
  (words.filter (fun w => !w.isEmpty)).map
    (fun w => if pyIsUpper w then pyCapitalize w else upperFirst w)

/-- `NodeParser.get_valid_class_name` from `node_parser.py`. -/
def get_valid_class_name (name : List Char) : List Char :=
  let className := replace_invalid_characters name ' '
  let className :=
    if containsSub ['_'] className then
      pyJoin [' '] (classWords (pySplitOn '_' className))
    else className
  let className := if pyIsUpper className then pyCapitalize className else className
  let className :=
    if className.isEmpty || (className.headD ' ').isDigit then
      ['M', 'o', 'd', 'e', 'l', ' '] ++ className
    else className
  ((pySplitOn ' ' className).filter (fun w => !w.isEmpty)).flatMap upperFirst

/-- Follows the claim's words (C5): same pipeline as `get_valid_field_name`,
but inserting an underscore only at every lowercase-to-uppercase transition
instead of in front of every non-initial uppercase letter. -/
def claimCamelToSnake : List Char → List Char
  | [] => []
  | c :: rest => c :: claimGo c rest
where
  /-- Walks the tail remembering the previous character. -/
  claimGo (prev : Char) : List Char → List Char
    | [] => []
    | d :: rest =>
      (if prev.isLower && d.isUpper then ['_', d] else [d]) ++ claimGo d rest

/-- Follows the claim's words (C5): the field-name normalizer as the claim
describes it, differing from `get_valid_field_name` only in the underscore
insertion rule. -/
def claimFieldName (name : List Char) : Option (List Char) :=
  let adjusted := replace_invalid_characters name '_'
  let fieldName := pyJoin ['_'] (fieldWords (pySplitOn '_' adjusted))
  let fieldName := claimCamelToSnake fieldName
  match fieldName with
  | [] => none
  | c :: rest =>
    let fieldName := if c.isDigit then 'f' :: 'i' :: 'e' :: 'l' :: 'd' :: '_' :: c :: rest
                     else c :: rest
    some (pyLower fieldName)

/-- A comma or a dot: the fractional separators accepted by the INI float
inference. -/
def sepChar (c : Char) : Bool := c == ',' || c == '.'

/-- Python `value.replace(",", ".")`. -/
def commaToDot (cs : List Char) : List Char :=
  cs.map (fun c => if c == ',' then '.' else c)

/-- Python `value.replace(".", "", 1)`: remove the first dot, if any. -/
def removeFirstDot : List Char → List Char
  | [] => []
  | c :: cs => if c == '.' then cs else c :: removeFirstDot cs

/-- The scalar-type inference of `INIParser.parse` from `node_parser.py`:
case-insensitive true/false is `bool`, an all-digit value is `int`, a value
that is all-digit after mapping commas to dots and removing one dot is
`float`, everything else is `str`. -/
def inferINIValueType (v : String) : String :=
  if pyLower v.data = "true".data ∨ pyLower v.data = "false".data then "bool"
  else if pyIsDigit v.data then "int"
  else if pyIsDigit (removeFirstDot (commaToDot v.data)) then "float"
  else "str"

/-- Follows the claim's words (C4): float exactly when the value contains
exactly one fractional separator and every other character is a digit, with
the bool and int cases checked first. -/
def claimScalarType (v : String) : String :=
  if pyLower v.data = "true".data ∨ pyLower v.data = "false".data then "bool"
  else if pyIsDigit v.data then "int"
  else if v.data.countP sepChar = 1
      ∧ (v.data.filter (fun c => !sepChar c)).all Char.isDigit = true then "float"
  else "str"

/-- The `Node` data model from `node.py`.  A `ListNode` is represented by the
same constructor with `is_list = true`; its stored class type is the value the
dataclass constructor wrote into `_class_type` (unused by reads, which go
through the computed property `class_type` below). -/
inductive Node : Type where
  | mk (name : String) (stored_class_type : String) (children : List Node)
      (default_value : Option String) (original_name : Option String)
      (is_duplicate : Bool) (needs_adjustment : Bool) (is_list : Bool)

/-- The `name` attribute of a node. -/
def Node.name : Node → String
  | .mk n _ _ _ _ _ _ _ => n

/-- The `children` attribute of a node. -/
def Node.children : Node → List Node
  | .mk _ _ c _ _ _ _ _ => c

/-- The `default` attribute of a node. -/
def Node.default_value : Node → Option String
  | .mk _ _ _ d _ _ _ _ => d

/-- The `original_name` attribute of a node. -/
def Node.original_name : Node → Option String
  | .mk _ _ _ _ o _ _ _ => o

/-- The `is_duplicate` attribute of a node. -/
def Node.is_duplicate : Node → Bool
  | .mk _ _ _ _ _ d _ _ => d

/-- The `needs_adjustment` attribute of a node. -/
def Node.needs_adjustment : Node → Bool
  | .mk _ _ _ _ _ _ a _ => a

/-- Whether the node is a `ListNode`. -/
def Node.is_list : Node → Bool
  | .mk _ _ _ _ _ _ _ l => l

theorem sizeOf_children_lt (n : Node) : sizeOf n.children < sizeOf n := by
  cases n with
  | mk name stored children d o dup adj lst => simp [Node.children]; omega

/-- Python `", ".join`-style joining of already-built strings. -/
def joinStrings (sep : String) : List String → String
  | [] => ""
  | [s] => s
  | s :: rest => s ++ sep ++ joinStrings sep rest

/-- First-occurrence deduplication with an accumulator of already-seen keys:
models the Python idiom `list({x: None for x in l})`, which keeps the first
occurrence of each element in insertion order. -/
def dedupFirstAux (seen : List String) : List String → List String
  | [] => []
  | x :: xs =>
    if x ∈ seen then dedupFirstAux seen xs
    else x :: dedupFirstAux (x :: seen) xs

/-- `list({x: None for x in l})` from `ListNode.class_type`. -/
def dedupFirst (l : List String) : List String := dedupFirstAux [] l

mutual
/-- The `class_type` read off a node: for a `ListNode` it is the computed
property `ListNode.class_type` from `node.py`, for a plain `Node` the stored
attribute. -/
def class_type : Node → String
  | .mk _ stored children _ _ _ _ lst =>
    if lst then list_class_type children else stored
termination_by n => (sizeOf n, 2)

/-- `ListNode.class_type` from `node.py` as a function of the children:
`"list"` when there are no children, `"list[T]"` when all children share one
type, otherwise a `Union` of the deduplicated types in insertion order. -/
def list_class_type : List Node → String
  | [] => "list"
  | c :: cs =>
    let types := dedupFirst (class_types (c :: cs))
    if types.length == 1 then "list[" ++ class_type c ++ "]"
    else "list[Union[" ++ joinStrings ", " types ++ "]]"
termination_by l => (sizeOf l, 1)

/-- The `class_type`s of a list of nodes, in order. -/
def class_types : List Node → List String
  | [] => []
  | c :: cs => class_type c :: class_types cs
termination_by l => (sizeOf l, 0)
end

theorem sizeOf_perm : ∀ {l1 l2 : List Node}, l1.Perm l2 → sizeOf l1 = sizeOf l2 := by
  intro l1 l2 h
  induction h with
  | nil => rfl
  | cons x _ ih => simp only [List.cons.sizeOf_spec]; omega
  | swap x y l => simp only [List.cons.sizeOf_spec]; omega
  | trans _ _ ih1 ih2 => omega

/-- Python `sorted(children, key=lambda n: n.name)`: a stable sort by name.
`List.insertionSort` with a total preorder is stable, and the output of a
stable sort under a fixed key is unique, so this coincides with Python's
stable sort. -/
def sortByName (l : List Node) : List Node :=
  l.insertionSort (fun a b => a.name ≤ b.name)

theorem sizeOf_sortByName (l : List Node) : sizeOf (sortByName l) = sizeOf l :=
  sizeOf_perm (List.perm_insertionSort _ l)

mutual
/-- `Node.__eq__` from `node.py`: one class type must be a textual start of
the other, names and child counts must match, and the children, sorted by
name on both sides, must be pairwise equal recursively. -/
def node_eq (a b : Node) : Bool :=
  (charsStart (class_type a).data (class_type b).data
      || charsStart (class_type b).data (class_type a).data)
    && a.name == b.name
    && a.children.length == b.children.length
    && sorted_children_eq (sortByName a.children) (sortByName b.children)
termination_by (sizeOf a + sizeOf b, 1)
decreasing_by
  have ha := sizeOf_children_lt a
  have hb := sizeOf_children_lt b
  rw [Prod.lex_def]
  left
  rw [sizeOf_sortByName, sizeOf_sortByName]
  omega

/-- The pairwise loop at the end of `Node.__eq__`. -/
def sorted_children_eq : List Node → List Node → Bool
  | [], [] => true
  | x :: xs, y :: ys => node_eq x y && sorted_children_eq xs ys
  | _ :: _, [] => false
  | [], _ :: _ => false
termination_by l1 l2 => (sizeOf l1 + sizeOf l2, 0)
decreasing_by
  · rw [Prod.lex_def]
    left
    simp only [List.cons.sizeOf_spec]
    omega
  · rw [Prod.lex_def]
    left
    simp only [List.cons.sizeOf_spec]
    omega
end

/-- `Node.__post_init__` from `node.py`, combined with the dataclass
constructor: the node is built, then `name` must be a Python identifier, and
`class_type` must contain the substring `"list"` or be a Python identifier;
a `ValueError` is modelled by `Except.error`.  Reading `self.class_type` goes
through the computed property, hence `class_type` below. -/
def make_node (name class_type_arg : String) (children : List Node)
    (default_value original_name : Option String) (lst : Bool) : Except String Node :=
  let node := Node.mk name class_type_arg children default_value original_name false false lst
  if !pyIsIdentifier name.data then
    .error ("\"" ++ name ++ "\" is not a valid identifier! Name in file: "
      ++ (match original_name with | none => "None" | some s => s))
  else if !containsSub "list".data (class_type node).data && !pyIsIdentifier (class_type node).data then
    .error ("\"" ++ class_type node ++ "\" is not a valid class name!")
  else
    .ok node

/-- Did the embedded constructor succeed (i.e. raise no `ValueError`)? -/
def isOkE {α : Type} : Except String α → Bool
  | .ok _ => true
  | .error _ => false

/-- The dedup registry `existing_nodes`: a Python dict from a class-type name
to the list of previously created nodes with that inferred name.  Insertion
order is kept, as in a Python dict. -/
def Registry : Type := List (String × List Node)

/-- Python `key in existing_nodes` / `existing_nodes[key]`. -/
def regFind : Registry → String → Option (List Node)
  | [], _ => none
  | (k, v) :: rest, key => if k == key then some v else regFind rest key

/-- Python `existing_nodes[key] = value`: overwrite in place, or append a new
key at the end. -/
def regSet : Registry → String → List Node → Registry
  | [], key, val => [(key, val)]
  | (k, v) :: rest, key, val =>
    if k == key then (k, val) :: rest else (k, v) :: regSet rest key val

/-- The basic type names that `_check_and_adjust_class_type` never registers. -/
def primitive_types : List String := ["int", "float", "str", "bool", "list", "tuple", "Any"]

/-- Python `node.class_type = value` (attribute assignment; no re-validation
happens, matching the dataclass which only validates in `__post_init__`). -/
def setClassType : Node → String → Node
  | .mk nm _ ch df og d adj lst, tp => .mk nm tp ch df og d adj lst

/-- Python `node.is_duplicate = True`. -/
def setDuplicate : Node → Node
  | .mk nm tp ch df og _ adj lst => .mk nm tp ch df og true adj lst

/-- Python `node.needs_adjustment = True`. -/
def setAdjust : Node → Node
  | .mk nm tp ch df og d _ lst => .mk nm tp ch df og d true lst

/-- The `for existing in existing_nodes[field_type]` loop of
`_check_and_adjust_class_type`: the first structurally equal entry, if any. -/
def findDup (node : Node) : List Node → Option Node
  | [] => none
  | e :: es => if node_eq node e then some e else findDup node es

/-- Wraps `get_valid_field_name` back into `String`. -/
def field_name_of (raw : String) : Option String :=
  (get_valid_field_name raw.data).map String.mk

/-- Wraps `get_valid_class_name` back into `String`. -/
def class_name_of (raw : String) : String :=
  String.mk (get_valid_class_name raw.data)

/-- Python `field if field != field_name else None`. -/
def orig_name (raw normalized : String) : Option String :=
  if raw == normalized then none else some raw

/-- `NodeParser._check_and_adjust_class_type` from `node_parser.py`,
returning the (possibly mutated) node together with the updated registry. -/
def check_and_adjust_class_type (node : Node) (existing_nodes : Registry)
    (parent_type : String) : Node × Registry :=
  let field_type := class_type node
  match regFind existing_nodes field_type with
  | some entries =>
    match findDup node entries with
    | some existing =>
      (setDuplicate (setClassType node (class_type existing)), existing_nodes)
    | none =>
      let node1 := setClassType node
        (String.mk (get_valid_class_name (parent_type.data ++ (class_type node).data)))
      let node2 :=
        if entries.any (fun existing => class_type node1 == class_type existing) then
          setAdjust (setClassType node1 (class_type node1 ++ toString entries.length))
        else node1
      (node2, regSet existing_nodes field_type (entries ++ [node2]))
  | none =>
    if field_type ∈ primitive_types then (node, existing_nodes)
    else (node, regSet existing_nodes field_type [node])

/-- The generic configuration tree handed to the parser by the format
adapters: mappings, sequences, and scalar leaves.  Only the runtime type name
of a scalar is ever consumed by the parser (`type(value).__name__`), so the
scalar payloads are not carried. -/
inductive GValue : Type where
  | vstr
  | vint
  | vfloat
  | vbool
  | vnone
  | dict (entries : List (String × GValue))
  | list (elems : List GValue)

/-- Python `type(value).__name__`, with `NoneType` replaced by `Any` as in
`_get_children_from_dict`/`_get_children_from_list`. -/
def scalar_type_name : GValue → String
  | .vstr => "str"
  | .vint => "int"
  | .vfloat => "float"
  | .vbool => "bool"
  | .vnone => "Any"
  | .dict _ => ""
  | .list _ => ""

mutual
/-- `NodeParser._get_children_from_dict` from `node_parser.py`: the registry
`existing_nodes` is the Python dict passed by reference, threaded here through
every recursive call and returned updated; a raised exception is modelled by
`Except.error`. -/
def get_children_from_dict :
    List (String × GValue) → Registry → String → Except String (List Node × Registry)
  | [], reg, _ => .ok ([], reg)
  | (fieldKey, GValue.list elems) :: rest, reg, parent_type =>
    match field_name_of fieldKey with
    | none => .error "IndexError in get_valid_field_name"
    | some field_name =>
      match get_children_from_list elems reg field_name parent_type with
      | .error e => .error e
      | .ok (babies, reg1) =>
        match make_node field_name "list" babies none (orig_name fieldKey field_name) true with
        | .error e => .error e
        | .ok child =>
          match get_children_from_dict rest reg1 parent_type with
          | .error e => .error e
          | .ok (others, reg2) => .ok (child :: others, reg2)
  | (fieldKey, GValue.dict entries) :: rest, reg, parent_type =>
    match field_name_of fieldKey with
    | none => .error "IndexError in get_valid_field_name"
    | some field_name =>
      let field_type := class_name_of fieldKey
      match get_children_from_dict entries reg field_type with
      | .error e => .error e
      | .ok (babies, reg1) =>
        match make_node field_name field_type babies none (orig_name fieldKey field_name) false with
        | .error e => .error e
        | .ok child =>
          let adjusted := check_and_adjust_class_type child reg1 parent_type
          match get_children_from_dict rest adjusted.2 parent_type with
          | .error e => .error e
          | .ok (others, reg2) => .ok (adjusted.1 :: others, reg2)
  | (fieldKey, other) :: rest, reg, parent_type =>
    match field_name_of fieldKey with
    | none => .error "IndexError in get_valid_field_name"
    | some field_name =>
      match make_node field_name (scalar_type_name other) [] none
          (orig_name fieldKey field_name) false with
      | .error e => .error e
      | .ok child =>
        let adjusted := check_and_adjust_class_type child reg parent_type
        match get_children_from_dict rest adjusted.2 parent_type with
        | .error e => .error e
        | .ok (others, reg2) => .ok (adjusted.1 :: others, reg2)

/-- `NodeParser._get_children_from_list` from `node_parser.py`. -/
def get_children_from_list :
    List GValue → Registry → String → String → Except String (List Node × Registry)
  | [], reg, _, _ => .ok ([], reg)
  | GValue.list elems :: rest, reg, field_name, parent_type =>
    match field_name_of (field_name ++ "_item") with
    | none => .error "IndexError in get_valid_field_name"
    | some element_name =>
      match get_children_from_list elems reg field_name parent_type with
      | .error e => .error e
      | .ok (babies, reg1) =>
        match make_node element_name "list" babies none none true with
        | .error e => .error e
        | .ok child =>
          match get_children_from_list rest reg1 field_name parent_type with
          | .error e => .error e
          | .ok (others, reg2) => .ok (child :: others, reg2)
  | GValue.dict entries :: rest, reg, field_name, parent_type =>
    match field_name_of (field_name ++ "_item") with
    | none => .error "IndexError in get_valid_field_name"
    | some element_name =>
      let element_type := class_name_of (field_name ++ "ListItem")
      match get_children_from_dict entries reg "list" with
      | .error e => .error e
      | .ok (babies, reg1) =>
        match make_node element_name element_type babies none none false with
        | .error e => .error e
        | .ok child =>
          let adjusted := check_and_adjust_class_type child reg1 ""
          match get_children_from_list rest adjusted.2 field_name parent_type with
          | .error e => .error e
          | .ok (others, reg2) => .ok (adjusted.1 :: others, reg2)
  | other :: rest, reg, field_name, parent_type =>
    match field_name_of (field_name ++ "_item") with
    | none => .error "IndexError in get_valid_field_name"
    | some element_name =>
      match make_node element_name (scalar_type_name other) [] none none false with
      | .error e => .error e
      | .ok child =>
        match get_children_from_list rest reg field_name parent_type with
        | .error e => .error e
        | .ok (others, reg1) => .ok (child :: others, reg1)
end

/-- `NodeParser.parse` from `node_parser.py`: root name and class type from
the file base name, children from `_get_children_from_dict` with a fresh
registry for the whole parse (the Python `existing_nodes={}` argument). -/
def NodeParser_parse (name : String) (data : List (String × GValue)) : Except String Node :=
  match field_name_of name with
  | none => .error "IndexError in get_valid_field_name"
  | some root_name =>
    let root_type := class_name_of name
    match get_children_from_dict data [] root_type with
    | .error e => .error e
    | .ok (children, _) =>
      make_node root_name root_type children none (orig_name name root_name) false

mutual
/-- Follows the claim's words (C1): the same parser, except that the recursion
into a nested mapping runs against a fresh empty registry whose contents are
discarded when that scope returns, so that deduplication only ever consults
nodes registered at the node's own enclosing object level. -/
def fresh_children_from_dict :
    List (String × GValue) → Registry → String → Except String (List Node × Registry)
  | [], reg, _ => .ok ([], reg)
  | (fieldKey, GValue.list elems) :: rest, reg, parent_type =>
    match field_name_of fieldKey with
    | none => .error "IndexError in get_valid_field_name"
    | some field_name =>
      match fresh_children_from_list elems reg field_name parent_type with
      | .error e => .error e
      | .ok (babies, reg1) =>
        match make_node field_name "list" babies none (orig_name fieldKey field_name) true with
        | .error e => .error e
        | .ok child =>
          match fresh_children_from_dict rest reg1 parent_type with
          | .error e => .error e
          | .ok (others, reg2) => .ok (child :: others, reg2)
  | (fieldKey, GValue.dict entries) :: rest, reg, parent_type =>
    match field_name_of fieldKey with
    | none => .error "IndexError in get_valid_field_name"
    | some field_name =>
      let field_type := class_name_of fieldKey
      match fresh_children_from_dict entries [] field_type with
      | .error e => .error e
      | .ok (babies, _) =>
        match make_node field_name field_type babies none (orig_name fieldKey field_name) false with
        | .error e => .error e
        | .ok child =>
          let adjusted := check_and_adjust_class_type child reg parent_type
          match fresh_children_from_dict rest adjusted.2 parent_type with
          | .error e => .error e
          | .ok (others, reg2) => .ok (adjusted.1 :: others, reg2)
  | (fieldKey, other) :: rest, reg, parent_type =>
    match field_name_of fieldKey with
    | none => .error "IndexError in get_valid_field_name"
    | some field_name =>
      match make_node field_name (scalar_type_name other) [] none
          (orig_name fieldKey field_name) false with
      | .error e => .error e
      | .ok child =>
        let adjusted := check_and_adjust_class_type child reg parent_type
        match fresh_children_from_dict rest adjusted.2 parent_type with
        | .error e => .error e
        | .ok (others, reg2) => .ok (adjusted.1 :: others, reg2)

/-- Follows the claim's words (C1): list handling for the fresh-scope parser;
a mapping element of a list again recurses with a fresh registry. -/
def fresh_children_from_list :
    List GValue → Registry → String → String → Except String (List Node × Registry)
  | [], reg, _, _ => .ok ([], reg)
  | GValue.list elems :: rest, reg, field_name, parent_type =>
    match field_name_of (field_name ++ "_item") with
    | none => .error "IndexError in get_valid_field_name"
    | some element_name =>
      match fresh_children_from_list elems reg field_name parent_type with
      | .error e => .error e
      | .ok (babies, reg1) =>
        match make_node element_name "list" babies none none true with
        | .error e => .error e
        | .ok child =>
          match fresh_children_from_list rest reg1 field_name parent_type with
          | .error e => .error e
          | .ok (others, reg2) => .ok (child :: others, reg2)
  | GValue.dict entries :: rest, reg, field_name, parent_type =>
    match field_name_of (field_name ++ "_item") with
    | none => .error "IndexError in get_valid_field_name"
    | some element_name =>
      let element_type := class_name_of (field_name ++ "ListItem")
      match fresh_children_from_dict entries [] "list" with
      | .error e => .error e
      | .ok (babies, _) =>
        match make_node element_name element_type babies none none false with
        | .error e => .error e
        | .ok child =>
          let adjusted := check_and_adjust_class_type child reg ""
          match fresh_children_from_list rest adjusted.2 field_name parent_type with
          | .error e => .error e
          | .ok (others, reg2) => .ok (adjusted.1 :: others, reg2)
  | other :: rest, reg, field_name, parent_type =>
    match field_name_of (field_name ++ "_item") with
    | none => .error "IndexError in get_valid_field_name"
    | some element_name =>
      match make_node element_name (scalar_type_name other) [] none none false with
      | .error e => .error e
      | .ok child =>
        match fresh_children_from_list rest reg field_name parent_type with
        | .error e => .error e
        | .ok (others, reg1) => .ok (child :: others, reg1)
end

/-- Follows the claim's words (C1): the root parse using the fresh-scope
recursion. -/
def fresh_parse (name : String) (data : List (String × GValue)) : Except String Node :=
  match field_name_of name with
  | none => .error "IndexError in get_valid_field_name"
  | some root_name =>
    let root_type := class_name_of name
    match fresh_children_from_dict data [] root_type with
    | .error e => .error e
    | .ok (children, _) =>
      make_node root_name root_type children none (orig_name name root_name) false

/-- Python truthiness of an optional string (`if self.default:` and
`if self.original_name:` are false for `None` and for the empty string). -/
def truthy : Option String → Bool
  | none => false
  | some s => !s.isEmpty

/-- A single-quote character as a string, used in the emitted alias text. -/
def singleQuote : String := String.mk [Char.ofNat 39]

/-- `Node._field_args` from `node.py`: the default value and the alias
metadata, joined with a comma. -/
def field_args (n : Node) : String :=
  joinStrings ", "
    ((match n.default_value with
      | some d => if d.isEmpty then [] else [d]
      | none => [])
    ++ (if truthy n.original_name then
          let o := n.original_name.getD ""
          ["\n        alias=" ++ singleQuote ++ o ++ singleQuote ++ ",\n        validation_alias=AliasChoices("
            ++ singleQuote ++ n.name ++ singleQuote ++ ", " ++ singleQuote ++ o ++ singleQuote ++ ")"]
        else []))

/-- `Node.generate_code` from `node.py` (and the `ListNode.generate_code`
override, which emits nothing): one class declaration with one field line per
child, no code at all for a childless node. -/
def generate_code (n : Node) : List String :=
  if n.is_list then []
  else if n.children.isEmpty then []
  else
    let header :=
      (if n.needs_adjustment then ["# TODO please adjust the class name"] else [])
      ++ ["class " ++ class_type n ++ "(BaseModel):",
          "    \"\"\"",
          "    Pydantic class for "
            ++ (if truthy n.original_name then n.original_name.getD "" else class_type n),
          "    \"\"\""]
    let body := n.children.flatMap (fun child =>
      (if class_type child == "Any" then ["    # TODO please specify the type"] else [])
      ++ (let line := "    " ++ child.name ++ ": " ++ class_type child
          if (field_args child).isEmpty then [line]
          else [line ++ " = Field(" ++ field_args child ++ ")", ""]))
    let code := header ++ body
    if code.getLast? == some "" then code.dropLast else code

mutual
/-- `generate_pydantic_classes` from `class_code_generator.py`: pre-order
emission, skipping duplicate children. -/
def generate_pydantic_classes (n : Node) : List String :=
  if n.children.isEmpty then []
  else
    (let node_code := generate_code n
     if node_code.isEmpty then [] else node_code ++ ["", ""])
    ++ generate_pydantic_classes_children n.children
termination_by (sizeOf n, 1)
decreasing_by
  rw [Prod.lex_def]
  left
  exact sizeOf_children_lt n

/-- The `for child in node.children` loop of `generate_pydantic_classes`. -/
def generate_pydantic_classes_children : List Node → List String
  | [] => []
  | c :: cs =>
    (if c.is_duplicate then [] else generate_pydantic_classes c)
    ++ generate_pydantic_classes_children cs
termination_by l => (sizeOf l, 0)
decreasing_by
  · rw [Prod.lex_def]
    left
    simp only [List.cons.sizeOf_spec]
    omega
  · rw [Prod.lex_def]
    left
    simp only [List.cons.sizeOf_spec]
    omega
end

mutual
/-- `any_untyped_fields` from `node.py`. -/
def any_untyped_fields (n : Node) : Bool :=
  class_type n == "Any" || any_untyped_children n.children
termination_by (sizeOf n, 1)
decreasing_by
  rw [Prod.lex_def]
  left
  exact sizeOf_children_lt n

/-- The child loop of `any_untyped_fields`. -/
def any_untyped_children : List Node → Bool
  | [] => false
  | c :: cs => any_untyped_fields c || any_untyped_children cs
termination_by l => (sizeOf l, 0)
decreasing_by
  · rw [Prod.lex_def]
    left
    simp only [List.cons.sizeOf_spec]
    omega
  · rw [Prod.lex_def]
    left
    simp only [List.cons.sizeOf_spec]
    omega
end

mutual
/-- `any_aliases` from `node.py`. -/
def any_aliases (n : Node) : Bool :=
  truthy n.original_name || any_aliases_children n.children
termination_by (sizeOf n, 1)
decreasing_by
  rw [Prod.lex_def]
  left
  exact sizeOf_children_lt n

/-- The child loop of `any_aliases`. -/
def any_aliases_children : List Node → Bool
  | [] => false
  | c :: cs => any_aliases c || any_aliases_children cs
termination_by l => (sizeOf l, 0)
decreasing_by
  · rw [Prod.lex_def]
    left
    simp only [List.cons.sizeOf_spec]
    omega
  · rw [Prod.lex_def]
    left
    simp only [List.cons.sizeOf_spec]
    omega
end

/-- `generate_all_classes` from `class_code_generator.py` as its list of
lines, before the final newline join: module header, imports, the class
declarations, and the two accessor functions `load_<root>` and
`load_<root>_from_file`. -/
def generate_all_classes_lines (node : Node) : List String :=
  ["\"\"\"\nA collection of generated BaseModels with " ++ class_type node
      ++ " as the root.\n\"\"\"",
    "",
    "from __future__ import annotations",
    "",
    "from pathlib import Path"]
  ++ [(if any_untyped_fields node then "from typing import Union, Any"
       else "from typing import Union")]
  ++ [("\nfrom pydantic import BaseModel"
       ++ (if any_aliases node then ", Field, AliasChoices" else ""))]
  ++ ["\nfrom pydantic_class_generator.class_code_generator import configuration_file_to_dict"]
  ++ ["\n"]
  ++ generate_pydantic_classes node
  ++ ["def load_" ++ node.name ++ "(input_dict: dict) -> " ++ class_type node ++ ":",
      "    \"\"\"",
      "    Returns a :class:`." ++ class_type node
        ++ "` with the value of the given input dictionary.",
      "    \"\"\"",
      "    return " ++ class_type node ++ "(**input_dict)",
      "",
      ""]
  ++ ["def load_" ++ node.name ++ "_from_file(path: Union[str, Path], encoding: str = \"utf-8\") -> "
        ++ class_type node ++ ":",
      "    \"\"\"",
      "    Reads the content of the given file and returns a :class:`." ++ class_type node ++ "`",
      "    \"\"\"",
      "    try:",
      "        data = configuration_file_to_dict(path=path, encoding=encoding)",
      "        return load_" ++ node.name ++ "(data)",
      "    except Exception as exc:",
      "        # This is intentionally this way to get a prettier traceback",
      "        raise exc from Exception(f\"Failed to load data from {path}\")",
      ""]

/-- `generate_all_classes` joined with newlines, as the Python function
returns it. -/
def generate_all_classes (node : Node) : String :=
  joinStrings "\n" (generate_all_classes_lines node)

/-- The error-translation line emitted into every `load_<root>_from_file`. -/
def raise_line : String :=
  "        raise exc from Exception(f\"Failed to load data from {path}\")"

/-- A minimal model of a Python exception as seen by the emitted accessor:
the message of the exception and the message of its `__cause__`, if any. -/
structure PyExc where
  message : String
  cause : Option String
deriving DecidableEq

/-- Python `raise a from b`: `a` is what propagates, and `b` is recorded as
its `__cause__`. -/
def raise_from (a b : PyExc) : PyExc :=
  { message := a.message, cause := some b.message }

/-- The handler in the emitted `load_<root>_from_file` accessor
(`raise exc from Exception(f"Failed to load data from {path}")` applied to a
failure `exc` caught for `path`). -/
def emitted_handler (exc : PyExc) (path : String) : PyExc :=
  raise_from exc { message := "Failed to load data from " ++ path, cause := none }

/-- Follows the claim's words (C7): a new error naming the offending path is
what propagates, and the original failure is attached to it as the cause. -/
def claim_handler (exc : PyExc) (path : String) : PyExc :=
  raise_from { message := "Failed to load data from " ++ path, cause := none } exc

/-- A directory tree of per-file parse outcomes: `NodeParser.parse_file`
either raises (`Except.error`), returns `none` for an unsupported extension,
or returns a root node.  The file-system walk of `NodeParser.parse_dir` is
abstracted to this tree; the control flow below is the translated loop body
of `parse_dir`. -/
inductive FSEntry : Type where
  | file (result : Except String (Option Node))
  | dir (entries : List FSEntry)

/-- `NodeParser.parse_dir` from `node_parser.py`: appends every file's parse
result in order and recurses into subdirectories; a raised error propagates
immediately, aborting the remaining iteration. -/
def parse_dir_model : List FSEntry → Except String (List (Option Node))
  | [] => .ok []
  | .file r :: rest =>
    match r with
    | .error e => .error e
    | .ok v =>
      match parse_dir_model rest with
      | .error e => .error e
      | .ok vs => .ok (v :: vs)
  | .dir entries :: rest =>
    match parse_dir_model entries with
    | .error e => .error e
    | .ok vs =>
      match parse_dir_model rest with
      | .error e => .error e
      | .ok ws => .ok (vs ++ ws)

/-- Follows the claim's words (C8): a batch driver that keeps going past
failing files and returns all successes together with the collected list of
per-file failures. -/
def collect_dir_model : List FSEntry → List (Option Node) × List String
  | [] => ([], [])
  | .file (.error e) :: rest =>
    let r := collect_dir_model rest
    (r.1, e :: r.2)
  | .file (.ok v) :: rest =>
    let r := collect_dir_model rest
    (v :: r.1, r.2)
  | .dir entries :: rest =>
    let r1 := collect_dir_model entries
    let r2 := collect_dir_model rest
    (r1.1 ++ r2.1, r1.2 ++ r2.2)

-- Concrete data for the C1 claim: two disjoint subtrees `a` and `b` that
-- both contain a nested mapping field `x` of the same shape.
def c1pN : Node := .mk "p" "int" [] none none false false false

def c1xN : Node := .mk "x" "X" [c1pN] none none false false false

def c1xDupN : Node := .mk "x" "X" [c1pN] none none true false false

def c1aN : Node := .mk "a" "A" [c1xN] none none false false false

def c1bN : Node := .mk "b" "B" [c1xDupN] none none false false false

def c1bFreshN : Node := .mk "b" "B" [c1xN] none none false false false

def c1Data : List (String × GValue) :=
  [("a", .dict [("x", .dict [("p", .vint)])]),
   ("b", .dict [("x", .dict [("p", .vint)])])]

/-- The childless root produced by parsing an empty mapping named `config`. -/
def c6Root : Node := .mk "config" "Config" [] none none false false false

def c8NodeA : Node := .mk "a" "A" [] none none false false false

def c8NodeB : Node := .mk "b" "B" [] none none false false false

-- Concrete nodes for the C2 counterexample: two children that share the name
-- "a" but have different scalar types, and a ListNode whose computed type
-- depends on the order of its children.
def c2LeafInt : Node := .mk "a" "int" [] none none false false false

def c2LeafStr : Node := .mk "a" "str" [] none none false false false

def c2Parent : Node := .mk "n" "T" [c2LeafInt, c2LeafStr] none none false false false

def c2ParentPermuted : Node := .mk "n" "T" [c2LeafStr, c2LeafInt] none none false false false

def c2Other : Node := .mk "n" "T" [c2LeafInt, c2LeafStr] none none false false false

def c2ItemX : Node := .mk "x" "int" [] none none false false false

def c2ItemY : Node := .mk "y" "str" [] none none false false false

def c2List : Node := .mk "l" "list" [c2ItemX, c2ItemY] none none false false true

def c2ListPermuted : Node := .mk "l" "list" [c2ItemY, c2ItemX] none none false false true

def c2ListOther : Node := .mk "l" "list" [c2ItemX, c2ItemY] none none false false true

theorem beq_symm {α : Type} [BEq α] [LawfulBEq α] (a b : α) : (a == b) = (b == a) := by
  by_cases h : a = b
  · subst h; rfl
  · rw [beq_eq_false_iff_ne.mpr h, beq_eq_false_iff_ne.mpr (Ne.symm h)]

theorem sorted_children_eq_comm : ∀ l1 l2 : List Node,
    (∀ x ∈ l1, ∀ y ∈ l2, node_eq x y = node_eq y x) →
    sorted_children_eq l1 l2 = sorted_children_eq l2 l1 := by
  intro l1
  induction l1 with
  | nil => intro l2 _; cases l2 <;> simp [sorted_children_eq]
  | cons x xs ih =>
    intro l2 h
    cases l2 with
    | nil => simp [sorted_children_eq]
    | cons y ys =>
      simp only [sorted_children_eq]
      rw [h x (by simp) y (by simp),
        ih ys (fun a ha b hb => h a (by simp [ha]) b (by simp [hb]))]

theorem sizeOf_mem_children {x n : Node} (hx : x ∈ n.children) : sizeOf x < sizeOf n :=
  lt_trans (List.sizeOf_lt_of_mem hx) (sizeOf_children_lt n)

theorem node_eq_comm_aux : ∀ (n : Nat) (a b : Node), sizeOf a + sizeOf b ≤ n →
    node_eq a b = node_eq b a := by
  intro n
  induction n using Nat.strong_induction_on with
  | _ n ih =>
    intro a b hab
    have hsc : sorted_children_eq (sortByName a.children) (sortByName b.children)
        = sorted_children_eq (sortByName b.children) (sortByName a.children) := by
      apply sorted_children_eq_comm
      intro x hx y hy
      simp only [sortByName, List.mem_insertionSort] at hx hy
      have h1 : sizeOf x < sizeOf a := sizeOf_mem_children hx
      have h2 : sizeOf y < sizeOf b := sizeOf_mem_children hy
      exact ih (sizeOf x + sizeOf y) (by omega) x y (le_refl _)
    simp only [node_eq]
    rw [Bool.or_comm, beq_symm a.name b.name, beq_symm a.children.length b.children.length, hsc]

theorem node_eq_comm (a b : Node) : node_eq a b = node_eq b a :=
  node_eq_comm_aux (sizeOf a + sizeOf b) a b (le_refl _)

theorem sorted_children_eq_iff : ∀ l1 l2 : List Node,
    sorted_children_eq l1 l2 = true ↔ List.Forall₂ (fun x y => node_eq x y = true) l1 l2 := by
  intro l1
  induction l1 with
  | nil =>
    intro l2
    cases l2 <;> simp [sorted_children_eq]
  | cons x xs ih =>
    intro l2
    cases l2 with
    | nil => simp [sorted_children_eq]
    | cons y ys => simp [sorted_children_eq, ih ys, List.forall₂_cons]

instance : IsTotal Node (fun a b : Node => a.name ≤ b.name) :=
  ⟨fun a b => le_total a.name b.name⟩

instance : IsTrans Node (fun a b : Node => a.name ≤ b.name) :=
  ⟨fun _ _ _ h1 h2 => le_trans h1 h2⟩

instance : IsAntisymm Node (fun a b : Node => a.name < b.name) :=
  ⟨fun _ _ h1 h2 => absurd h2 (lt_asymm h1)⟩

theorem strict_of_sorted_nodup (m : List Node) (hm : (m.map Node.name).Nodup)
    (hs : List.Sorted (fun a b : Node => a.name ≤ b.name) m) :
    m.Pairwise (fun a b : Node => a.name < b.name) := by
  have hne : m.Pairwise (fun a b : Node => a.name ≠ b.name) := List.pairwise_map.mp hm
  exact (List.Pairwise.and hs hne).imp (fun h => lt_of_le_of_ne h.1 h.2)

theorem sortByName_eq_of_perm (l l' : List Node) (hp : l.Perm l')
    (hn : (l.map Node.name).Nodup) : sortByName l = sortByName l' := by
  have hperm : (sortByName l).Perm (sortByName l') :=
    (List.perm_insertionSort _ l).trans (hp.trans (List.perm_insertionSort _ l').symm)
  have hnl : ((sortByName l).map Node.name).Nodup :=
    (((List.perm_insertionSort _ l).map Node.name).nodup_iff).mpr hn
  have hnl' : ((sortByName l').map Node.name).Nodup :=
    ((hperm.map Node.name).nodup_iff).mp hnl
  exact List.eq_of_perm_of_sorted hperm
    (strict_of_sorted_nodup _ hnl (List.sorted_insertionSort _ l))
    (strict_of_sorted_nodup _ hnl' (List.sorted_insertionSort _ l'))

theorem node_eq_of_perm_children (nm tp : String) (ch ch' : List Node)
    (df og : Option String) (d adj : Bool) (b : Node)
    (hp : ch'.Perm ch) (hn : (ch.map Node.name).Nodup) :
    node_eq (Node.mk nm tp ch' df og d adj false) b
      = node_eq (Node.mk nm tp ch df og d adj false) b := by
  have hn' : (ch'.map Node.name).Nodup := ((hp.map Node.name).nodup_iff).mpr hn
  have hs : sortByName ch' = sortByName ch := sortByName_eq_of_perm ch' ch hp hn'
  simp only [node_eq, Node.name, Node.children, class_type, if_neg, Bool.false_eq_true,
    if_false]
  rw [hs, hp.length_eq]

theorem class_types_eq_map : ∀ l : List Node, class_types l = l.map class_type := by
  intro l
  induction l with
  | nil => simp [class_types]
  | cons c cs ih => simp [class_types, ih]

theorem dedupFirstAux_mem : ∀ (l seen : List String) (x : String),
    x ∈ dedupFirstAux seen l ↔ x ∈ l ∧ x ∉ seen := by
  intro l
  induction l with
  | nil => simp [dedupFirstAux]
  | cons y ys ih =>
    intro seen x
    simp only [dedupFirstAux]
    by_cases hy : y ∈ seen
    · rw [if_pos hy, ih]
      constructor
      · rintro ⟨h1, h2⟩
        exact ⟨List.mem_cons_of_mem _ h1, h2⟩
      · rintro ⟨h1, h2⟩
        rcases List.mem_cons.mp h1 with rfl | h1
        · exact absurd hy h2
        · exact ⟨h1, h2⟩
    · rw [if_neg hy]
      simp only [List.mem_cons, ih]
      constructor
      · rintro (rfl | ⟨h1, h2⟩)
        · exact ⟨Or.inl rfl, hy⟩
        · refine ⟨Or.inr h1, fun hc => h2 (Or.inr hc)⟩
      · rintro ⟨rfl | h1, h2⟩
        · exact Or.inl rfl
        · by_cases hxy : x = y
          · exact Or.inl hxy
          · exact Or.inr ⟨h1, fun hc => hc.elim hxy h2⟩

theorem dedupFirstAux_nodup : ∀ (l seen : List String), (dedupFirstAux seen l).Nodup := by
  intro l
  induction l with
  | nil => intro seen; simp [dedupFirstAux]
  | cons y ys ih =>
    intro seen
    simp only [dedupFirstAux]
    by_cases hy : y ∈ seen
    · rw [if_pos hy]; exact ih seen
    · rw [if_neg hy]
      refine List.nodup_cons.mpr ⟨?_, ih _⟩
      intro hmem
      exact ((dedupFirstAux_mem ys (y :: seen) y).mp hmem).2 (List.mem_cons_self y seen)

theorem dedupFirstAux_sublist : ∀ (l seen : List String), List.Sublist (dedupFirstAux seen l) l := by
  intro l
  induction l with
  | nil => intro seen; simp [dedupFirstAux]
  | cons y ys ih =>
    intro seen
    simp only [dedupFirstAux]
    by_cases hy : y ∈ seen
    · rw [if_pos hy]; exact (ih seen).cons y
    · rw [if_neg hy]; exact (ih (y :: seen)).cons₂ y

theorem dedupFirstAux_const : ∀ (l seen : List String) (t : String),
    (∀ x ∈ l, x = t) → t ∈ seen → dedupFirstAux seen l = [] := by
  intro l
  induction l with
  | nil => intro seen t _ _; rfl
  | cons y ys ih =>
    intro seen t hall ht
    have hy : y = t := hall y (by simp)
    subst hy
    simp only [dedupFirstAux, if_pos ht]
    exact ih seen y (fun x hx => hall x (List.mem_cons_of_mem _ hx)) ht

theorem dedupFirst_const (l : List String) (t : String) (hall : ∀ x ∈ l, x = t) :
    dedupFirst (t :: l) = [t] := by
  simp [dedupFirst, dedupFirstAux, dedupFirstAux_const l [t] t hall (by simp)]

theorem length_lt_of_two_mem {α : Type} {a b : α} {l : List α}
    (ha : a ∈ l) (hb : b ∈ l) (hab : a ≠ b) : 1 < l.length := by
  cases l with
  | nil => simp at ha
  | cons x xs =>
    cases xs with
    | nil =>
      simp only [List.mem_singleton] at ha hb
      exact absurd (ha.trans hb.symm) hab
    | cons y ys => simp only [List.length_cons]; omega

theorem make_node_isOk (nm tp : String) (ch : List Node) (df og : Option String) :
    isOkE (make_node nm tp ch df og false)
      = (pyIsIdentifier nm.data && (containsSub "list".data tp.data || pyIsIdentifier tp.data)) := by
  have hct : class_type (Node.mk nm tp ch df og false false false) = tp := by
    simp [class_type]
  simp only [make_node, hct]
  cases h1 : pyIsIdentifier nm.data <;> cases h2 : containsSub "list".data tp.data <;>
    cases h3 : pyIsIdentifier tp.data <;> simp [h1, h2, h3, isOkE]

theorem fieldWords_underscores : ∀ cs : List Char, cs.all (fun c => c == '_') = true →
    fieldWords (pySplitOn '_' cs) = [] := by
  intro cs
  induction cs with
  | nil => intro _; rfl
  | cons c cs ih =>
    intro h
    simp only [List.all_cons, Bool.and_eq_true, beq_iff_eq] at h
    obtain ⟨rfl, h2⟩ := h
    simp only [pySplitOn, if_pos rfl]
    rw [← ih h2]
    simp [fieldWords, List.filter]

/-- C2, counterexample: permuting the order of a node's children can change
whether it is equal to another node.  First failure mode: two children share
the field name `"a"`, so the stable sort of `Node.__eq__` keeps their relative
order and the pairwise comparison pairs `int` against `str`.  Second failure
mode: a `ListNode`'s computed `class_type` lists the child types in encounter
order, so permuting the children changes the type text itself and the
class-type comparison of `Node.__eq__` fails. -/
theorem C2_perm_counterexample :
    (c2ParentPermuted.children.Perm c2Parent.children
      ∧ node_eq c2Parent c2Other = true
      ∧ node_eq c2ParentPermuted c2Other = false)
    ∧ (c2ListPermuted.children.Perm c2List.children
      ∧ node_eq c2List c2ListOther = true
      ∧ node_eq c2ListPermuted c2ListOther = false) := by
  refine ⟨⟨?_, ?_, ?_⟩, ⟨?_, ?_, ?_⟩⟩
  · simp only [c2ParentPermuted, c2Parent, Node.children]
    exact List.Perm.swap c2LeafInt c2LeafStr []
  · simp +decide [node_eq, sorted_children_eq, sortByName, class_type, c2Parent, c2Other,
      c2LeafInt, c2LeafStr, Node.name, Node.children, List.insertionSort, List.orderedInsert,
      charsStart]
  · simp +decide [node_eq, sorted_children_eq, sortByName, class_type, c2ParentPermuted,
      c2Other, c2LeafInt, c2LeafStr, Node.name, Node.children, List.insertionSort,
      List.orderedInsert, charsStart]
  · simp only [c2ListPermuted, c2List, Node.children]
    exact List.Perm.swap c2ItemX c2ItemY []
  · simp +decide [node_eq, sorted_children_eq, sortByName, class_type, list_class_type,
      class_types, dedupFirst, dedupFirstAux, joinStrings, c2List, c2ListOther, c2ItemX,
      c2ItemY, Node.name, Node.children, List.insertionSort, List.orderedInsert, charsStart]
  · simp +decide [node_eq, sorted_children_eq, sortByName, class_type, list_class_type,
      class_types, dedupFirst, dedupFirstAux, joinStrings, c2ListPermuted, c2ListOther,
      c2ItemX, c2ItemY, Node.name, Node.children, List.insertionSort, List.orderedInsert,
      charsStart]

/-- C2, amended: `Node.__eq__` holds iff one class type textually starts the
other, the names agree, the child counts agree, and the children sorted by
name are pairwise equal recursively; the relation is symmetric; and permuting
the children of a non-list node whose children carry pairwise distinct names
does not change equality (the counterexample shows the unrestricted
permutation claim fails for repeated child names and for list nodes). -/
theorem C2_structural_equality :
    (∀ a b : Node, node_eq a b = true ↔
      ((charsStart (class_type a).data (class_type b).data = true
          ∨ charsStart (class_type b).data (class_type a).data = true)
        ∧ a.name = b.name
        ∧ a.children.length = b.children.length
        ∧ List.Forall₂ (fun x y => node_eq x y = true)
            (sortByName a.children) (sortByName b.children)))
    ∧ (∀ a b : Node, node_eq a b = node_eq b a)
    ∧ (∀ (nm tp : String) (ch ch' : List Node) (df og : Option String) (d adj : Bool)
        (b : Node), ch'.Perm ch → (ch.map Node.name).Nodup →
        node_eq (Node.mk nm tp ch' df og d adj false) b
          = node_eq (Node.mk nm tp ch df og d adj false) b) := by
  refine ⟨?_, node_eq_comm, node_eq_of_perm_children⟩
  intro a b
  rw [node_eq]
  simp only [Bool.and_eq_true, Bool.or_eq_true, beq_iff_eq, sorted_children_eq_iff]
  tauto

/-- C2, witness: the permutation-invariance part of the amended claim applied
to a node with distinctly named children. -/
theorem C2_witness :
    node_eq (Node.mk "n" "T" [c2ItemY, c2ItemX] none none false false false) c2Other
      = node_eq (Node.mk "n" "T" [c2ItemX, c2ItemY] none none false false false) c2Other :=
  C2_structural_equality.2.2 "n" "T" [c2ItemX, c2ItemY] [c2ItemY, c2ItemX] none none false false
    c2Other (List.Perm.swap c2ItemX c2ItemY []) (by decide)

/-- C3: `ListNode.class_type` is computed from the children: `"list"` for no
children; `"list[T]"` when every child has the same class type `T`; otherwise
a `Union` over the children's class types with duplicates removed, keeping
first occurrences in insertion order (the dedup result is duplicate-free, an
order-preserving subsequence of the type list, and has the same members). -/
theorem C3_list_class_type :
    (list_class_type [] = "list")
    ∧ (∀ (c : Node) (cs : List Node) (t : String), (∀ x ∈ c :: cs, class_type x = t) →
        list_class_type (c :: cs) = "list[" ++ t ++ "]")
    ∧ (∀ (c : Node) (cs : List Node), ¬(∀ x ∈ c :: cs, class_type x = class_type c) →
        list_class_type (c :: cs)
          = "list[Union[" ++ joinStrings ", " (dedupFirst (class_types (c :: cs))) ++ "]]")
    ∧ (∀ l : List String, (dedupFirst l).Nodup ∧ List.Sublist (dedupFirst l) l
        ∧ (∀ x : String, x ∈ dedupFirst l ↔ x ∈ l)) := by
  refine ⟨by simp [list_class_type], ?_, ?_, ?_⟩
  · intro c cs t hall
    have hmap : class_types (c :: cs) = t :: cs.map class_type := by
      rw [class_types_eq_map]
      simp [hall c (by simp)]
    have hcs : ∀ x ∈ cs.map class_type, x = t := by
      intro x hx
      rcases List.mem_map.mp hx with ⟨y, hy, rfl⟩
      exact hall y (by simp [hy])
    have hd : dedupFirst (class_types (c :: cs)) = [t] := by
      rw [hmap]
      exact dedupFirst_const _ _ hcs
    simp only [list_class_type]
    rw [hd]
    simp [hall c (by simp)]
  · intro c cs hall
    push_neg at hall
    obtain ⟨x, hx, hne⟩ := hall
    have hmemc : class_type c ∈ dedupFirst (class_types (c :: cs)) := by
      simp [dedupFirst, dedupFirstAux_mem, class_types_eq_map]
    have hmemx : class_type x ∈ dedupFirst (class_types (c :: cs)) := by
      simp only [dedupFirst, dedupFirstAux_mem, class_types_eq_map]
      exact ⟨List.mem_map_of_mem class_type hx, by simp⟩
    have hlen : 1 < (dedupFirst (class_types (c :: cs))).length :=
      length_lt_of_two_mem hmemx hmemc hne
    simp only [list_class_type]
    rw [if_neg]
    intro hcontra
    rw [beq_iff_eq] at hcontra
    omega
  · intro l
    refine ⟨dedupFirstAux_nodup l [], dedupFirstAux_sublist l [], ?_⟩
    intro x
    simp [dedupFirst, dedupFirstAux_mem]

/-- C3, witness: the computed list type at concrete children lists. -/
theorem C3_witness :
    list_class_type [Node.mk "i" "int" [] none none false false false] = "list[int]"
    ∧ list_class_type [Node.mk "i" "int" [] none none false false false,
        Node.mk "s" "str" [] none none false false false] = "list[Union[int, str]]" := by
  constructor
  · exact C3_list_class_type.2.1 _ [] "int" (by simp +decide [class_type])
  · have h := C3_list_class_type.2.2.1 (Node.mk "i" "int" [] none none false false false)
      [Node.mk "s" "str" [] none none false false false] (by
        intro hcontra
        have := hcontra (Node.mk "s" "str" [] none none false false false) (by simp)
        simp +decide [class_type] at this)
    rw [h]
    simp +decide [class_types, class_type, dedupFirst, dedupFirstAux, joinStrings]

/-- C9: `Node.__post_init__` raises exactly when the name is not a valid
identifier or the class type neither contains the substring `"list"` nor is a
valid identifier; in particular a class type containing `"list"` anywhere can
never cause construction to raise. -/
theorem C9_node_validation :
    (∀ (nm tp : String) (ch : List Node) (df og : Option String),
      isOkE (make_node nm tp ch df og false)
        = (pyIsIdentifier nm.data && (containsSub "list".data tp.data || pyIsIdentifier tp.data)))
    ∧ (∀ (nm tp : String) (ch : List Node) (df og : Option String),
      containsSub "list".data tp.data = true →
      isOkE (make_node nm tp ch df og false) = pyIsIdentifier nm.data) := by
  refine ⟨make_node_isOk, ?_⟩
  intro nm tp ch df og h
  rw [make_node_isOk, h]
  simp

/-- C9, witness: a malformed class type containing `"list"` never makes the
constructor raise; with a valid name the construction succeeds. -/
theorem C9_witness :
    containsSub "list".data "list[#bad#".data = true
    ∧ isOkE (make_node "x" "list[#bad#" [] none none false) = pyIsIdentifier "x".data :=
  ⟨by decide, C9_node_validation.2 "x" "list[#bad#" [] none none (by decide)⟩

/-- C10: whenever the sanitized form of the input contains only underscores
(in particular for the empty string and for strings of replaced characters
such as `"-"`), `get_valid_field_name` reaches the unguarded `field_name[0]`
index on an empty string and fails with an `IndexError` (modelled by `none`)
rather than returning a value or raising a controlled parsing error. -/
theorem C10_sanitized_empty_crash :
    ∀ s : List Char, (replace_invalid_characters s '_').all (fun c => c == '_') = true →
      get_valid_field_name s = none := by
  intro s h
  simp only [get_valid_field_name]
  rw [fieldWords_underscores _ h]
  rfl

/-- C10, witness: the crash at the concrete inputs `"-"` and `""`. -/
theorem C10_witness :
    ((replace_invalid_characters "-".data '_').all (fun c => c == '_') = true
      ∧ get_valid_field_name "-".data = none)
    ∧ ((replace_invalid_characters "".data '_').all (fun c => c == '_') = true
      ∧ get_valid_field_name "".data = none) :=
  ⟨⟨by decide, C10_sanitized_empty_crash _ (by decide)⟩,
    ⟨by decide, C10_sanitized_empty_crash _ (by decide)⟩⟩


theorem fn_lit_cfg : field_name_of "cfg" = some "cfg" := by decide

theorem fn_lit_a : field_name_of "a" = some "a" := by decide

theorem fn_lit_b : field_name_of "b" = some "b" := by decide

theorem fn_lit_x : field_name_of "x" = some "x" := by decide

theorem fn_lit_p : field_name_of "p" = some "p" := by decide

theorem fn_lit_config : field_name_of "config" = some "config" := by decide

theorem cn_lit_cfg : class_name_of "cfg" = "Cfg" := by decide

theorem cn_lit_a : class_name_of "a" = "A" := by decide

theorem cn_lit_b : class_name_of "b" = "B" := by decide

theorem cn_lit_x : class_name_of "x" = "X" := by decide

theorem cn_lit_config : class_name_of "config" = "Config" := by decide

theorem ne_xx :
    node_eq
      (Node.mk "x" "X" [Node.mk "p" "int" [] none none false false false] none none false false false)
      (Node.mk "x" "X" [Node.mk "p" "int" [] none none false false false] none none false false false)
      = true := by
  simp +decide [node_eq, sorted_children_eq, sortByName, class_type, Node.name, Node.children,
    List.insertionSort, List.orderedInsert, charsStart]

theorem c1s1 : get_children_from_dict [("p", GValue.vint)] [] "X"
    = .ok ([Node.mk "p" "int" [] none none false false false], []) := by
  simp +decide [get_children_from_dict, make_node, fn_lit_p, orig_name,
    check_and_adjust_class_type, regFind, primitive_types, class_type, scalar_type_name]

theorem c1s2 : get_children_from_dict [("x", GValue.dict [("p", GValue.vint)])] [] "A"
    = .ok ([Node.mk "x" "X" [Node.mk "p" "int" [] none none false false false]
        none none false false false],
      [("X", [Node.mk "x" "X" [Node.mk "p" "int" [] none none false false false]
        none none false false false])]) := by
  simp +decide [get_children_from_dict, c1s1, make_node, fn_lit_x, cn_lit_x, orig_name,
    check_and_adjust_class_type, regFind, regSet, findDup, primitive_types, class_type]

theorem c1s3 : get_children_from_dict [("p", GValue.vint)]
      [("X", [Node.mk "x" "X" [Node.mk "p" "int" [] none none false false false]
          none none false false false]),
       ("A", [Node.mk "a" "A" [Node.mk "x" "X" [Node.mk "p" "int" [] none none false false false]
          none none false false false] none none false false false])] "X"
    = .ok ([Node.mk "p" "int" [] none none false false false],
      [("X", [Node.mk "x" "X" [Node.mk "p" "int" [] none none false false false]
          none none false false false]),
       ("A", [Node.mk "a" "A" [Node.mk "x" "X" [Node.mk "p" "int" [] none none false false false]
          none none false false false] none none false false false])]) := by
  simp +decide [get_children_from_dict, make_node, fn_lit_p, orig_name,
    check_and_adjust_class_type, regFind, primitive_types, class_type, scalar_type_name]

theorem c1s4 : get_children_from_dict [("x", GValue.dict [("p", GValue.vint)])]
      [("X", [Node.mk "x" "X" [Node.mk "p" "int" [] none none false false false]
          none none false false false]),
       ("A", [Node.mk "a" "A" [Node.mk "x" "X" [Node.mk "p" "int" [] none none false false false]
          none none false false false] none none false false false])] "B"
    = .ok ([Node.mk "x" "X" [Node.mk "p" "int" [] none none false false false]
        none none true false false],
      [("X", [Node.mk "x" "X" [Node.mk "p" "int" [] none none false false false]
          none none false false false]),
       ("A", [Node.mk "a" "A" [Node.mk "x" "X" [Node.mk "p" "int" [] none none false false false]
          none none false false false] none none false false false])]) := by
  simp +decide [get_children_from_dict, c1s3, make_node, fn_lit_x, cn_lit_x, orig_name,
    check_and_adjust_class_type, regFind, regSet, findDup, ne_xx, setClassType, setDuplicate,
    primitive_types, class_type]

theorem c1s5 : get_children_from_dict
      [("a", GValue.dict [("x", GValue.dict [("p", GValue.vint)])]),
       ("b", GValue.dict [("x", GValue.dict [("p", GValue.vint)])])] [] "Cfg"
    = .ok ([Node.mk "a" "A" [Node.mk "x" "X" [Node.mk "p" "int" [] none none false false false]
          none none false false false] none none false false false,
        Node.mk "b" "B" [Node.mk "x" "X" [Node.mk "p" "int" [] none none false false false]
          none none true false false] none none false false false],
      [("X", [Node.mk "x" "X" [Node.mk "p" "int" [] none none false false false]
          none none false false false]),
       ("A", [Node.mk "a" "A" [Node.mk "x" "X" [Node.mk "p" "int" [] none none false false false]
          none none false false false] none none false false false]),
       ("B", [Node.mk "b" "B" [Node.mk "x" "X" [Node.mk "p" "int" [] none none false false false]
          none none true false false] none none false false false])]) := by
  simp +decide [get_children_from_dict, c1s2, c1s4, make_node, fn_lit_a, fn_lit_b,
    cn_lit_a, cn_lit_b, orig_name, check_and_adjust_class_type, regFind, regSet, findDup,
    primitive_types, class_type]

theorem c1f1 : fresh_children_from_dict [("p", GValue.vint)] [] "X"
    = .ok ([Node.mk "p" "int" [] none none false false false], []) := by
  simp +decide [fresh_children_from_dict, make_node, fn_lit_p, orig_name,
    check_and_adjust_class_type, regFind, primitive_types, class_type, scalar_type_name]

theorem c1f2 : fresh_children_from_dict [("x", GValue.dict [("p", GValue.vint)])] [] "A"
    = .ok ([Node.mk "x" "X" [Node.mk "p" "int" [] none none false false false]
        none none false false false],
      [("X", [Node.mk "x" "X" [Node.mk "p" "int" [] none none false false false]
        none none false false false])]) := by
  simp +decide [fresh_children_from_dict, c1f1, make_node, fn_lit_x, cn_lit_x, orig_name,
    check_and_adjust_class_type, regFind, regSet, findDup, primitive_types, class_type]

theorem c1f2b : fresh_children_from_dict [("x", GValue.dict [("p", GValue.vint)])] [] "B"
    = .ok ([Node.mk "x" "X" [Node.mk "p" "int" [] none none false false false]
        none none false false false],
      [("X", [Node.mk "x" "X" [Node.mk "p" "int" [] none none false false false]
        none none false false false])]) := by
  simp +decide [fresh_children_from_dict, c1f1, make_node, fn_lit_x, cn_lit_x, orig_name,
    check_and_adjust_class_type, regFind, regSet, findDup, primitive_types, class_type]

theorem c1f5 : fresh_children_from_dict
      [("a", GValue.dict [("x", GValue.dict [("p", GValue.vint)])]),
       ("b", GValue.dict [("x", GValue.dict [("p", GValue.vint)])])] [] "Cfg"
    = .ok ([Node.mk "a" "A" [Node.mk "x" "X" [Node.mk "p" "int" [] none none false false false]
          none none false false false] none none false false false,
        Node.mk "b" "B" [Node.mk "x" "X" [Node.mk "p" "int" [] none none false false false]
          none none false false false] none none false false false],
      [("A", [Node.mk "a" "A" [Node.mk "x" "X" [Node.mk "p" "int" [] none none false false false]
          none none false false false] none none false false false]),
       ("B", [Node.mk "b" "B" [Node.mk "x" "X" [Node.mk "p" "int" [] none none false false false]
          none none false false false] none none false false false])]) := by
  simp +decide [fresh_children_from_dict, c1f2, c1f2b, make_node, fn_lit_a, fn_lit_b,
    cn_lit_a, cn_lit_b, orig_name, check_and_adjust_class_type, regFind, regSet, findDup,
    primitive_types, class_type]

theorem class_type_nonlist (nm tp : String) (ch : List Node) (df og : Option String)
    (dup adj : Bool) : class_type (Node.mk nm tp ch df og dup adj false) = tp := by
  simp [class_type]

theorem make_node_ok_nonlist (nm tp : String) (ch : List Node) (df og : Option String)
    (h1 : pyIsIdentifier nm.data = true)
    (h2 : (containsSub "list".data tp.data || pyIsIdentifier tp.data) = true) :
    make_node nm tp ch df og false
      = Except.ok (Node.mk nm tp ch df og false false false) := by
  have hct := class_type_nonlist nm tp ch df og false false
  simp [make_node, hct, h1, ← Bool.not_or, h2]

theorem parse_ok_of (name rn : String) (data : List (String × GValue))
    (ch : List Node) (reg : Registry) (root : Except String Node)
    (h1 : field_name_of name = some rn)
    (h2 : get_children_from_dict data [] (class_name_of name) = Except.ok (ch, reg))
    (h3 : make_node rn (class_name_of name) ch none (orig_name name rn) false = root) :
    NodeParser_parse name data = root := by
  unfold NodeParser_parse
  simp only [h1, h2]
  exact h3

theorem fresh_parse_ok_of (name rn : String) (data : List (String × GValue))
    (ch : List Node) (reg : Registry) (root : Except String Node)
    (h1 : field_name_of name = some rn)
    (h2 : fresh_children_from_dict data [] (class_name_of name) = Except.ok (ch, reg))
    (h3 : make_node rn (class_name_of name) ch none (orig_name name rn) false = root) :
    fresh_parse name data = root := by
  unfold fresh_parse
  simp only [h1, h2]
  exact h3

/-- C1, counterexample: the parser does NOT open a fresh registry scope for a
nested mapping.  On `{a: {x: {p: 1}}, b: {x: {p: 1}}}` the source parser
threads one registry through both subtrees, so the composite node at `b.x` is
collapsed as a duplicate of `a.x`, which lives in a disjoint subtree; the
fresh-scope parser that the claim describes leaves `b.x` unmarked.  The two
behaviours differ at this input, refuting the claim. -/
theorem C1_counterexample :
    NodeParser_parse "cfg" c1Data
      = .ok (Node.mk "cfg" "Cfg" [c1aN, c1bN] none none false false false)
    ∧ fresh_parse "cfg" c1Data
      = .ok (Node.mk "cfg" "Cfg" [c1aN, c1bFreshN] none none false false false)
    ∧ c1bN.children = [c1xDupN] ∧ c1xDupN.is_duplicate = true
    ∧ c1bFreshN.children = [c1xN] ∧ c1xN.is_duplicate = false := by
  refine ⟨?_, ?_, rfl, rfl, rfl, rfl⟩
  · exact parse_ok_of "cfg" "cfg" c1Data _ _ _ fn_lit_cfg
      (by rw [cn_lit_cfg]; exact c1s5)
      (by rw [cn_lit_cfg, show orig_name "cfg" "cfg" = none from rfl]
          exact make_node_ok_nonlist "cfg" "Cfg" _ none none (by decide) (by decide))
  · exact fresh_parse_ok_of "cfg" "cfg" c1Data _ _ _ fn_lit_cfg
      (by rw [cn_lit_cfg]; exact c1f5)
      (by rw [cn_lit_cfg, show orig_name "cfg" "cfg" = none from rfl]
          exact make_node_ok_nonlist "cfg" "Cfg" _ none none (by decide) (by decide))

/-- C1, amended: one registry, created empty once per top-level parse, is
threaded by reference through the whole recursion — nested mappings included —
so deduplication of a composite node consults every composite node registered
earlier anywhere in the same parse, including ones from disjoint subtrees: on
`{a: {x: {p: 1}}, b: {x: {p: 1}}}` the node at `b.x` is marked as a duplicate
of the structurally equal node `a.x` from the sibling subtree and adopts its
class type `X`. -/
theorem C1_shared_registry_dedup :
    NodeParser_parse "cfg" c1Data
      = .ok (Node.mk "cfg" "Cfg"
          [Node.mk "a" "A" [Node.mk "x" "X" [c1pN] none none false false false]
            none none false false false,
           Node.mk "b" "B" [Node.mk "x" "X" [c1pN] none none true false false]
            none none false false false]
          none none false false false) := by
  exact parse_ok_of "cfg" "cfg" c1Data _ _ _ fn_lit_cfg
    (by rw [cn_lit_cfg]; exact c1s5)
    (by rw [cn_lit_cfg, show orig_name "cfg" "cfg" = none from rfl]
        exact make_node_ok_nonlist "cfg" "Cfg" _ none none (by decide) (by decide))

/-- C6, counterexample: an empty mapping parses successfully to a childless
root, but the emitted output contains NO class declaration for that root —
`Node.generate_code` and `generate_pydantic_classes` both return nothing for
a node without children, refuting the claim that a class with no members is
emitted. -/
theorem C6_counterexample :
    NodeParser_parse "config" [] = .ok c6Root
    ∧ generate_code c6Root = []
    ∧ generate_pydantic_classes c6Root = []
    ∧ (generate_all_classes_lines c6Root).all
        (fun line => !charsStart "class ".data line.data) = true := by
  refine ⟨?_, ?_, ?_, ?_⟩
  · simp +decide [NodeParser_parse, get_children_from_dict, make_node, fn_lit_config,
      cn_lit_config, orig_name, class_type, c6Root, isOkE]
  · simp [generate_code, c6Root, Node.children, Node.is_list]
  · simp [generate_pydantic_classes, c6Root, Node.children]
  · simp +decide [generate_all_classes_lines, generate_pydantic_classes,
      any_untyped_fields, any_untyped_children, any_aliases, any_aliases_children,
      truthy, class_type, c6Root, Node.name, Node.children, Node.original_name, Node.is_list]

/-- C6, amended: an empty-mapping input parses without raising and yields a
root schema node with zero children, but the emitter skips childless nodes,
so no class declaration is produced for that root (the generated accessor
functions still reference the class name).  A zero-byte INI file reduces to
the same empty-mapping case; zero-byte JSON/YAML files fail in their readers
before reaching the parser. -/
theorem C6_empty_mapping :
    isOkE (NodeParser_parse "config" []) = true
    ∧ NodeParser_parse "config" [] = .ok c6Root
    ∧ c6Root.children = []
    ∧ generate_pydantic_classes_children [c6Root] = [] := by
  have h : NodeParser_parse "config" [] = .ok c6Root := by
    simp +decide [NodeParser_parse, get_children_from_dict, make_node, fn_lit_config,
      cn_lit_config, orig_name, class_type, c6Root, isOkE]
  refine ⟨by rw [h]; rfl, h, rfl, ?_⟩
  simp [generate_pydantic_classes_children, generate_pydantic_classes, c6Root,
    Node.children, Node.is_duplicate]

/-- C7, counterexample: the emitted handler is
`raise exc from Exception(f"Failed to load data from {path}")` — the ORIGINAL
failure is what propagates and the new path-naming error becomes its cause,
which is the opposite of the claim: the propagating message is `"boom"`, not
the path-naming message. -/
theorem C7_counterexample :
    emitted_handler ⟨"boom", none⟩ "conf.json" ≠ claim_handler ⟨"boom", none⟩ "conf.json"
    ∧ (emitted_handler ⟨"boom", none⟩ "conf.json").message = "boom"
    ∧ (claim_handler ⟨"boom", none⟩ "conf.json").message
        = "Failed to load data from conf.json" := by
  refine ⟨?_, rfl, rfl⟩
  intro h
  have := congrArg PyExc.message h
  simp [emitted_handler, claim_handler, raise_from] at this

/-- C7, amended: on any failure, the generated file-reading accessor
re-raises the ORIGINAL exception, with a new error naming the offending path
attached to it as the cause (`raise exc from Exception(...)`); the
path-naming error is the cause, not what propagates.  The second part ties
the model to the source: every emitted module contains exactly that handler
line. -/
theorem C7_error_wrapping :
    (∀ (exc : PyExc) (path : String),
      emitted_handler exc path
        = { message := exc.message, cause := some ("Failed to load data from " ++ path) })
    ∧ (∀ n : Node, raise_line ∈ generate_all_classes_lines n) := by
  constructor
  · intro exc path
    rfl
  · intro n
    simp [generate_all_classes_lines, raise_line]

/-- C8, counterexample: in a batch run over three files where the second
fails, `parse_dir` propagates the failure immediately — the result is the
bare first error, no list of per-file failures, and the third file's result
is absent — while the batch driver described by the claim would return both
successes together with the collected failure list. -/
theorem C8_counterexample :
    parse_dir_model [FSEntry.file (.ok (some c8NodeA)), FSEntry.file (.error "boom"),
        FSEntry.file (.ok (some c8NodeB))] = .error "boom"
    ∧ collect_dir_model [FSEntry.file (.ok (some c8NodeA)), FSEntry.file (.error "boom"),
        FSEntry.file (.ok (some c8NodeB))] = ([some c8NodeA, some c8NodeB], ["boom"]) := by
  constructor
  · simp [parse_dir_model]
  · simp [collect_dir_model]

/-- C8, amended: the batch walk fails fast — whenever a file raises, the
whole directory parse evaluates to that first error, discarding the results
of all files after it and collecting nothing. -/
theorem C8_fail_fast :
    ∀ (vs : List (Option Node)) (e : String) (post : List FSEntry),
      parse_dir_model (vs.map (fun v => FSEntry.file (.ok v))
          ++ FSEntry.file (.error e) :: post) = .error e := by
  intro vs e post
  induction vs with
  | nil => simp [parse_dir_model]
  | cons v rest ih => simp [parse_dir_model, ih]

theorem countP_commaToDot : ∀ v : List Char,
    (commaToDot v).countP (fun c => c == '.') = v.countP sepChar := by
  intro v
  induction v with
  | nil => rfl
  | cons c cs ih =>
    simp only [commaToDot, List.map_cons, List.countP_cons] at *
    rw [ih]
    by_cases hc : c = ','
    · subst hc; simp [sepChar]
    · simp only [beq_eq_false_iff_ne.mpr hc, if_neg, Bool.false_eq_true, if_false, sepChar]
      by_cases hd : c = '.'
      · subst hd; simp
      · simp [beq_eq_false_iff_ne.mpr hc, beq_eq_false_iff_ne.mpr hd]

theorem filter_commaToDot : ∀ v : List Char,
    (commaToDot v).filter (fun c => !(c == '.')) = v.filter (fun c => !sepChar c) := by
  intro v
  induction v with
  | nil => rfl
  | cons c cs ih =>
    simp only [commaToDot, List.map_cons, List.filter_cons] at *
    rw [ih]
    by_cases hc : c = ','
    · subst hc; simp [sepChar]
    · by_cases hd : c = '.'
      · subst hd; simp [sepChar, beq_eq_false_iff_ne.mpr hc]
      · simp [sepChar, beq_eq_false_iff_ne.mpr hc, beq_eq_false_iff_ne.mpr hd]

theorem removeFirstDot_no_dot : ∀ d : List Char,
    d.countP (fun c => c == '.') = 0 → removeFirstDot d = d := by
  intro d
  induction d with
  | nil => intro _; rfl
  | cons c cs ih =>
    intro h
    simp only [List.countP_cons] at h
    by_cases hc : c = '.'
    · subst hc; simp at h
    · simp only [removeFirstDot, beq_eq_false_iff_ne.mpr hc, Bool.false_eq_true, if_false]
      rw [ih (by omega)]

theorem removeFirstDot_one_dot : ∀ d : List Char,
    d.countP (fun c => c == '.') = 1 →
    removeFirstDot d = d.filter (fun c => !(c == '.')) := by
  intro d
  induction d with
  | nil => intro h; simp at h
  | cons c cs ih =>
    intro h
    simp only [List.countP_cons] at h
    by_cases hc : c = '.'
    · subst hc
      simp only [removeFirstDot, beq_self_eq_true, if_pos, List.filter_cons]
      have h' : cs.countP (fun c => c == '.') + 1 = 1 := by simpa using h
      have h0 : cs.countP (fun c => c == '.') = 0 := by omega
      have : cs.filter (fun c => !(c == '.')) = cs := by
        rw [List.filter_eq_self]
        intro a ha
        have := List.countP_eq_zero.mp h0 a ha
        simpa using this
      simp [this]
    · simp only [removeFirstDot, beq_eq_false_iff_ne.mpr hc, Bool.false_eq_true, if_false,
        List.filter_cons]
      rw [ih (by simpa [beq_eq_false_iff_ne.mpr hc] using h)]
      simp [beq_eq_false_iff_ne.mpr hc]

theorem removeFirstDot_two_dots : ∀ d : List Char,
    2 ≤ d.countP (fun c => c == '.') → '.' ∈ removeFirstDot d := by
  intro d
  induction d with
  | nil => intro h; simp at h
  | cons c cs ih =>
    intro h
    simp only [List.countP_cons] at h
    by_cases hc : c = '.'
    · subst hc
      simp only [removeFirstDot, beq_self_eq_true, if_pos]
      have h' : 2 ≤ cs.countP (fun c => c == '.') + 1 := by simpa using h
      have h1 : 0 < cs.countP (fun c => c == '.') := by omega
      obtain ⟨a, ha, hp⟩ := List.countP_pos_iff.mp h1
      have : a = '.' := by simpa using hp
      subst this
      exact ha
    · simp only [removeFirstDot, beq_eq_false_iff_ne.mpr hc, Bool.false_eq_true, if_false]
      refine List.mem_cons_of_mem _ (ih ?_)
      simpa [beq_eq_false_iff_ne.mpr hc] using h

theorem commaToDot_no_sep : ∀ v : List Char, v.countP sepChar = 0 → commaToDot v = v := by
  intro v
  induction v with
  | nil => intro _; rfl
  | cons c cs ih =>
    intro h
    simp only [List.countP_cons] at h
    have hns : sepChar c = false := by
      cases hsc : sepChar c
      · rfl
      · rw [hsc] at h; simp at h
    have hc : ¬ c = ',' := by
      intro hc; subst hc; simp [sepChar] at hns
    simp only [commaToDot, List.map_cons, beq_eq_false_iff_ne.mpr hc, Bool.false_eq_true,
      if_false]
    have : cs.countP sepChar = 0 := by
      rw [hns] at h; simpa using h
    have := ih this
    simp only [commaToDot] at this
    rw [this]

theorem sep_not_bool : ∀ v : List Char, v.countP sepChar = 1 →
    ¬(pyLower v = "true".data ∨ pyLower v = "false".data) := by
  intro v h hb
  obtain ⟨c, hc, hp⟩ := List.countP_pos_iff.mp (by omega : 0 < v.countP sepChar)
  have hmem : pyLowerChar c ∈ pyLower v := List.mem_map_of_mem pyLowerChar hc
  have hcc : c = ',' ∨ c = '.' := by
    simp only [sepChar, Bool.or_eq_true, beq_iff_eq] at hp
    exact hp
  rcases hcc with rfl | rfl <;> rcases hb with hb | hb <;> rw [hb] at hmem <;>
    simp [pyLowerChar] at hmem

theorem sep_not_digit : ∀ v : List Char, v.countP sepChar = 1 → pyIsDigit v = false := by
  intro v h
  obtain ⟨c, hc, hp⟩ := List.countP_pos_iff.mp (by omega : 0 < v.countP sepChar)
  have hcc : c = ',' ∨ c = '.' := by
    simp only [sepChar, Bool.or_eq_true, beq_iff_eq] at hp
    exact hp
  cases hd : pyIsDigit v
  · rfl
  · exfalso
    simp only [pyIsDigit, Bool.and_eq_true, List.all_eq_true] at hd
    have := hd.2 c hc
    rcases hcc with rfl | rfl <;> simp at this

theorem float_cond_iff : ∀ v : List Char, pyIsDigit v = false →
    (pyIsDigit (removeFirstDot (commaToDot v)) = true ↔
      (v.countP sepChar = 1 ∧ v.filter (fun c => !sepChar c) ≠ []
        ∧ (v.filter (fun c => !sepChar c)).all Char.isDigit = true)) := by
  intro v hv
  by_cases h1 : v.countP sepChar = 1
  · have hd1 : (commaToDot v).countP (fun c => c == '.') = 1 := by
      rw [countP_commaToDot]; exact h1
    rw [removeFirstDot_one_dot _ hd1, filter_commaToDot]
    simp only [pyIsDigit, Bool.and_eq_true, h1, true_and]
    constructor
    · rintro ⟨he, ha⟩
      refine ⟨?_, ha⟩
      intro hempty
      rw [hempty] at he
      simp at he
    · rintro ⟨he, ha⟩
      refine ⟨?_, ha⟩
      cases hh : v.filter (fun c => !sepChar c)
      · exact absurd hh he
      · simp [hh]
  · by_cases h0 : v.countP sepChar = 0
    · have hv0 : v.countP (fun c => c == '.') = 0 := by
        have hcd := countP_commaToDot v
        rw [commaToDot_no_sep v h0] at hcd
        rw [hcd]
        exact h0
      rw [commaToDot_no_sep v h0, removeFirstDot_no_dot v hv0, hv]
      simp [h1]
    · have h2 : 2 ≤ v.countP sepChar := by omega
      have hmem : '.' ∈ removeFirstDot (commaToDot v) := by
        apply removeFirstDot_two_dots
        rw [countP_commaToDot]
        exact h2
      have : pyIsDigit (removeFirstDot (commaToDot v)) = false := by
        cases hpd : pyIsDigit (removeFirstDot (commaToDot v))
        · rfl
        · exfalso
          simp only [pyIsDigit, Bool.and_eq_true, List.all_eq_true] at hpd
          have := hpd.2 '.' hmem
          simp at this
      rw [this]
      simp [h1]

/-- C4, counterexample: the value `","` contains exactly one fractional
separator and every other character (there are none) is a digit, so the claim
classifies it as a float; the code strips the separator, is left with the
empty string, `"".isdigit()` is false, and the value is classified as a
string. -/
theorem C4_counterexample :
    inferINIValueType "," = "str" ∧ claimScalarType "," = "float" := by
  constructor <;> decide

/-- C4, amended: the INI scalar inference is: boolean for case-insensitive
true/false; otherwise integer for a nonempty all-digit value; otherwise float
exactly when the value contains exactly one fractional separator (comma or
dot), AT LEAST ONE further character, and every other character is a digit;
otherwise string. -/
theorem C4_ini_scalar_inference :
    (∀ v : String, inferINIValueType v = "bool" ↔
      (pyLower v.data = "true".data ∨ pyLower v.data = "false".data))
    ∧ (∀ v : String, inferINIValueType v = "int" ↔
      (¬(pyLower v.data = "true".data ∨ pyLower v.data = "false".data)
        ∧ pyIsDigit v.data = true))
    ∧ (∀ v : String, inferINIValueType v = "float" ↔
      (v.data.countP sepChar = 1
        ∧ v.data.filter (fun c => !sepChar c) ≠ []
        ∧ (v.data.filter (fun c => !sepChar c)).all Char.isDigit = true)) := by
  refine ⟨?_, ?_, ?_⟩ <;> intro v <;> simp only [inferINIValueType] <;>
    split_ifs with hb hi hf
  · exact iff_of_true rfl hb
  · exact iff_of_false (by decide) hb
  · exact iff_of_false (by decide) hb
  · exact iff_of_false (by decide) hb
  · exact iff_of_false (by decide) (fun h => h.1 hb)
  · exact iff_of_true rfl ⟨hb, hi⟩
  · exact iff_of_false (by decide) (fun h => hi h.2)
  · exact iff_of_false (by decide) (fun h => hi h.2)
  · exact iff_of_false (by decide) (fun h => sep_not_bool v.data h.1 hb)
  · refine iff_of_false (by decide) (fun h => ?_)
    rw [sep_not_digit v.data h.1] at hi
    exact absurd hi (by simp)
  · have hv : pyIsDigit v.data = false := by
      cases hpd : pyIsDigit v.data
      · rfl
      · exact absurd hpd hi
    exact iff_of_true rfl ((float_cond_iff v.data hv).mp hf)
  · have hv : pyIsDigit v.data = false := by
      cases hpd : pyIsDigit v.data
      · rfl
      · exact absurd hpd hi
    exact iff_of_false (by decide) (fun h => hf ((float_cond_iff v.data hv).mpr h))

/-- C5, counterexample: the field-name normalizer inserts an underscore in
front of EVERY uppercase letter that is not at the start of the string, not
only at lowercase-to-uppercase transitions: `"foo_Bar"` normalizes to
`"foo__bar"` (underscore inserted after an underscore) and `"ABr"` to
`"a_br"` (underscore inserted between two uppercase letters), while the
claim's rule would produce `"foo_bar"` and `"abr"`. -/
theorem C5_counterexample :
    get_valid_field_name "foo_Bar".data = some "foo__bar".data
    ∧ claimFieldName "foo_Bar".data = some "foo_bar".data
    ∧ get_valid_field_name "ABr".data = some "a_br".data
    ∧ claimFieldName "ABr".data = some "abr".data := by
  refine ⟨?_, ?_, ?_, ?_⟩ <;> decide

/-- C5, amended: the normalizer transliterates diacritics, replaces other
invalid characters with underscores, lower-cases all-uppercase tokens and
keeps mixed-case tokens verbatim, inserts an underscore before EVERY
non-initial uppercase letter (also after underscores, digits and other
uppercase letters), prefixes `field_` for a leading digit, and lower-cases
the result; `"Ä-1"` gives `"ae_1"` and the class-name form of `"HTTP_PORT"`
is `"HttpPort"`. -/
theorem C5_normalizer :
    get_valid_field_name "Ä-1".data = some "ae_1".data
    ∧ get_valid_class_name "HTTP_PORT".data = "HttpPort".data
    ∧ get_valid_field_name "HTTPServer".data = some "h_t_t_p_server".data
    ∧ get_valid_field_name "1a".data = some "field_1a".data
    ∧ get_valid_field_name "foo_Bar".data = some "foo__bar".data
    ∧ get_valid_field_name "a1B_cD".data = some "a1_b_c_d".data := by
  refine ⟨?_, ?_, ?_, ?_, ?_, ?_⟩ <;> decide
